import Mathlib

/-
  Verification of the grid data/selection engine of a spreadsheet UI
  library (the `util` module and the module boundaries it relies on).

  The `util` source file is embedded directly.  The leaf modules it
  imports (Point, PointRange, Matrix, Formula, the Selected union and
  the store state) are not part of the given sources; they are modelled
  from the specification, and every such definition is marked
  "Modelled from the spec:" in its doc comment.
-/

namespace RS

/-- Modelled from the spec: the dynamic values cells and the formula
capability traffic in.  The host language distinguishes an undefined
value from a null value, and strings, numbers and booleans; the model
keeps exactly those shapes.  Numbers are modelled as integers, which is
the range the claims quantify over. -/
inductive Value where
  | undef
  | null
  | str (s : String)
  | num (n : Int)
  | bool (b : Bool)
deriving DecidableEq

/-- Modelled from the spec: host-language truthiness (undefined, null,
the empty string, zero and false are falsy; everything else is truthy). -/
def truthy : Value → Bool
  | Value.undef => false
  | Value.null => false
  | Value.str s => s != ""
  | Value.num n => n != 0
  | Value.bool b => b

/-- Modelled from the spec: the host language's `a || b` — `a` when `a`
is truthy, otherwise `b`. -/
def jsOr (a b : Value) : Value :=
  if truthy a then a else b

/-- Modelled from the spec: the host language's string coercion used
when a value is appended to a string. -/
def jsToString : Value → String
  | Value.undef => "undefined"
  | Value.null => "null"
  | Value.str s => s
  | Value.num n => toString n
  | Value.bool b => if b then "true" else "false"

/-- Modelled from the spec: a Point is an immutable grid coordinate
`(row, column)` with non-negative integer components. -/
structure Point where
  row : Nat
  column : Nat
deriving DecidableEq

/-- Modelled from the spec: the canonical origin `(0, 0)`. -/
def Point.ORIGIN : Point := ⟨0, 0⟩

/-- Modelled from the spec: a PointRange is a normalized inclusive
rectangle `{start, end}` with `start <= end` componentwise established
at construction.  The `end` corner is called `end_` because the source
name is a reserved word here. -/
structure PointRange where
  start : Point
  end_ : Point
deriving DecidableEq

/-- Modelled from the spec: `create` normalizes two arbitrary corner
points into canonical `start <= end` form by componentwise min/max. -/
def PointRange.create (a b : Point) : PointRange :=
  ⟨⟨Nat.min a.row b.row, Nat.min a.column b.column⟩,
   ⟨Nat.max a.row b.row, Nat.max a.column b.column⟩⟩

/-- Modelled from the spec: `mask(range, bounds)` clamps both corners of
`range` componentwise into the rectangle of `bounds`, so the result
stays inside the bounds and keeps the `start <= end` invariant. -/
def PointRange.mask (r bounds : PointRange) : PointRange :=
  ⟨⟨Nat.min (Nat.max r.start.row bounds.start.row) bounds.end_.row,
    Nat.min (Nat.max r.start.column bounds.start.column) bounds.end_.column⟩,
   ⟨Nat.min (Nat.max r.end_.row bounds.start.row) bounds.end_.row,
    Nat.min (Nat.max r.end_.column bounds.start.column) bounds.end_.column⟩⟩

/-- `outer` contains `inner`: both corners of `inner` lie inside the
rectangle of `outer` (componentwise). -/
def PointRange.contains (outer inner : PointRange) : Prop :=
  outer.start.row ≤ inner.start.row ∧
  outer.start.column ≤ inner.start.column ∧
  inner.end_.row ≤ outer.end_.row ∧
  inner.end_.column ≤ outer.end_.column

instance (outer inner : PointRange) : Decidable (PointRange.contains outer inner) := by
  unfold PointRange.contains
  infer_instance

/-- Modelled from the spec: `iterate` produces the points of the range
in row-major order (outer loop over rows, inner over columns), inclusive
of both `start` and `end`, materialized here as a list. -/
def PointRange.iterate (r : PointRange) : List Point :=
  (List.range (r.end_.row + 1 - r.start.row)).flatMap (fun i =>
    (List.range (r.end_.column + 1 - r.start.column)).map (fun j =>
      Point.mk (r.start.row + i) (r.start.column + j)))

/-- Modelled from the spec: a Matrix is a sparse, bounds-derived 2D
container — rows of optionally present cells; a cell absent from
storage is `none`, never an error. -/
abbrev Matrix (T : Type) : Type := List (List (Option T))

/-- Modelled from the spec: point-indexed read; out-of-range points
always yield an absent value, never an error. -/
def Matrix.get {T : Type} (p : Point) (m : Matrix T) : Option T :=
  match m.get? p.row with
  | some r =>
    match r.get? p.column with
    | some c => c
    | none => none
  | none => none

/-- Modelled from the spec: `{rows, columns}` size derived from the
content — the number of rows and the width of the bounding box. -/
structure Size where
  rows : Nat
  columns : Nat
deriving DecidableEq

/-- Modelled from the spec: size computation for a matrix. -/
def Matrix.getSize {T : Type} (m : Matrix T) : Size :=
  ⟨m.length, (List.map List.length m).foldr Nat.max 0⟩

/-- Modelled from the spec: the bounding corner of the matrix — the
highest row/column of the bounding box, the origin sentinel for an
empty matrix (truncated subtraction keeps the coordinates
non-negative). -/
def Matrix.maxPoint {T : Type} (m : Matrix T) : Point :=
  ⟨(Matrix.getSize m).rows - 1, (Matrix.getSize m).columns - 1⟩

/-- Modelled from the spec: rectangular sub-matrix between two corner
points (inclusive), re-indexed so `start` maps to the new origin;
absent source cells remain absent. -/
def Matrix.slice {T : Type} (start stop : Point) (m : Matrix T) : Matrix T :=
  (List.range (stop.row + 1 - start.row)).map (fun i =>
    (List.range (stop.column + 1 - start.column)).map (fun j =>
      Matrix.get ⟨start.row + i, start.column + j⟩ m))

/-- Modelled from the spec: elementwise mapping — the function is
applied at every logical cell position, including absent ones, and the
shape is preserved. -/
def Matrix.map {T U : Type} (f : Option T → U) (m : Matrix T) : Matrix U :=
  List.map (fun row => List.map (fun c => some (f c)) row) m

/-- Modelled from the spec: row-major flattening into a flat string —
each row becomes a tab-separated line, rows separated by newlines,
absent cells contribute an empty field. -/
def Matrix.join (m : Matrix Value) : String :=
  String.intercalate "\n" (List.map (fun row =>
    String.intercalate "\t" (List.map (fun c =>
      match c with
      | some v => jsToString v
      | none => "") row)) m)

/-- Modelled from the spec: the minimal cell contract — a `value`
(possibly undefined) plus optional display metadata the core ignores. -/
structure CellBase where
  value : Value
  readOnly : Option Bool := none
  className : Option String := none
deriving DecidableEq

/-- Modelled from the spec: the Selected union — a tagged variant over
empty, a concrete range, entire rows, entire columns, and the whole
table. -/
inductive Selected where
  | none
  | range (r : PointRange)
  | entireRows (first last : Nat)
  | entireColumns (first last : Nat)
  | entireTable
deriving DecidableEq

/-- Modelled from the spec: the `PointRange.is` discriminator on the
Selected union — whether the selection currently denotes a concrete
rectangle. -/
def Selected.isRange : Selected → Bool
  | Selected.range _ => true
  | _ => false

/-- Modelled from the spec: the formula marker — a single reserved
leading character of a cell's string value. -/
def formulaMarker : Char := '='

/-- Modelled from the spec: `Formula.isFormulaValue` — true iff the
value is a string beginning with the formula marker. -/
def isFormulaValue : Value → Bool
  | Value.str s => s.data.head? == some formulaMarker
  | _ => false

/-- Modelled from the spec: `Formula.extractFormula` — strips the
one-character marker, returning the bare expression; meaningful only
under the `isFormulaValue` precondition. -/
def extractFormula (s : String) : String :=
  s.drop 1

/-- Read a string out of a value; meaningful only under the
`isFormulaValue` precondition (where the value is a string). -/
def asString : Value → String
  | Value.str s => s
  | _ => ""

/-- Modelled from the spec: the shape of the injected formula
capability's answer — a `result` field and an `error` field, the absent
one undefined. -/
structure ParseResponse where
  result : Value
  error : Value

/-- The MIME identifier of the plain-text clipboard payload. -/
def PLAIN_TEXT_MIME : String := "text/plain"

/-- Modelled from the spec: the event-scoped clipboard payload — an
optional `getData` accessor keyed by MIME type; absence models a
platform event without `clipboardData`. -/
structure ClipboardEventModel where
  clipboardData : Option (String → String)

/-- Modelled from the spec: the platform global exposing a legacy
clipboard accessor (keyed by the legacy `"Text"` format name) on some
platforms; absence models platforms without it.  Presence of the
function models the `obj && obj.getData` guard of the source. -/
structure WindowModel where
  clipboardData : Option (String → String)

/-- `readTextFromClipboard`: the legacy global accessor is consulted
first when present, then the event payload, else the empty string. -/
def readTextFromClipboard (w : WindowModel) (event : ClipboardEventModel) : String :=
  match w.clipboardData with
  | some getData => getData "Text"
  | none =>
    match event.clipboardData with
    | some getData => getData PLAIN_TEXT_MIME
    | none => ""

/-- An element's pixel box, in the field order of the source's
`Dimensions` type. -/
structure Dimensions where
  width : Int
  height : Int
  left : Int
  top : Int
deriving DecidableEq

/-- Modelled from the spec: the per-row pixel metadata kept in the
store (a height and a vertical offset). -/
structure RowDims where
  height : Int
  top : Int
deriving DecidableEq

/-- Modelled from the spec: the per-column pixel metadata kept in the
store (a width and a horizontal offset). -/
structure ColDims where
  width : Int
  left : Int
deriving DecidableEq

/-- Modelled from the spec: the slice of the store state the core
reads — per-row and per-column pixel dimension metadata, possibly
absent for any index. -/
structure StoreState where
  rowDimensions : Nat → Option RowDims
  columnDimensions : Nat → Option ColDims

/-- `getCellDimensions`: combines the row metadata and the column
metadata of the point into one pixel box; absent metadata on either
axis yields an absent result (the source's `a && b && {...a, ...b}`). -/
def getCellDimensions (point : Point) (state : StoreState) : Option Dimensions :=
  match state.rowDimensions point.row, state.columnDimensions point.column with
  | some rd, some cd =>
    some { width := cd.width, height := rd.height, left := cd.left, top := rd.top }
  | _, _ => none

/-- `getRangeDimensions`: the pixel bounding box spanning the two
corner cells of the range; absent when either corner's dimensions are
absent. -/
def getRangeDimensions (state : StoreState) (range_ : PointRange) : Option Dimensions :=
  match getCellDimensions range_.start state, getCellDimensions range_.end_ state with
  | some startDimensions, some endDimensions =>
    some { width := endDimensions.left + endDimensions.width - startDimensions.left,
           height := endDimensions.top + endDimensions.height - startDimensions.top,
           left := startDimensions.left,
           top := startDimensions.top }
  | _, _ => none

/-- `isFormulaCell`: whether the cell holds a formula value. -/
def isFormulaCell (cell : CellBase) : Bool :=
  isFormulaValue cell.value

/-- `getFormulaComputedValue`: extract the expression, hand it to the
injected capability, and return `error || result` of its answer. -/
def getFormulaComputedValue (cell : CellBase) (formulaParse : String → ParseResponse) : Value :=
  let resp := formulaParse (extractFormula (asString cell.value))
  jsOr resp.error resp.result

/-- `getComputedValue`: absent cell yields null; a formula cell is
delegated to the capability; any other cell yields its raw value. -/
def getComputedValue (cell : Option CellBase) (formulaParse : String → ParseResponse) : Value :=
  match cell with
  | Option.none => Value.null
  | some c =>
    if isFormulaCell c then getFormulaComputedValue c formulaParse
    else c.value

/-- `getMatrixRange`: the full bounding rectangle of the data. -/
def getMatrixRange {T : Type} (data : Matrix T) : PointRange :=
  PointRange.create Point.ORIGIN (Matrix.maxPoint data)

/-- `normalizeSelected`: a range selection is masked to the data's
bounding rectangle; every other variant passes through unchanged. -/
def normalizeSelected {T : Type} (selected : Selected) (data : Matrix T) : Selected :=
  match selected with
  | Selected.range r => Selected.range (PointRange.mask r (getMatrixRange data))
  | s => s

/-- `getSelectedPoints`: the materialized iteration of a range
selection; the empty list for every other variant. -/
def getSelectedPoints (selected : Selected) : List Point :=
  match selected with
  | Selected.range r => PointRange.iterate r
  | _ => []

/-- `getRangeFromMatrix`: slice the matrix to the range. -/
def getRangeFromMatrix {T : Type} (range_ : PointRange) (matrix : Matrix T) : Matrix T :=
  Matrix.slice range_.start range_.end_ matrix

/-- The literal value of a possibly-absent cell — the source's
`cell?.value`, which is undefined for an absent cell. -/
def cellLiteral : Option CellBase → Value
  | some c => c.value
  | Option.none => Value.undef

/-- `getCSV`: map every cell of the matrix to `cell?.value || ""` and
join the result row-major. -/
def getCSV (data : Matrix CellBase) : String :=
  Matrix.join (Matrix.map (fun cell => jsOr (cellLiteral cell) (Value.str "")) data)

/-- `getSelectedCSV`: the empty string for a non-range selection, else
the CSV of the slice of the data to the selected range. -/
def getSelectedCSV (selected : Selected) (data : Matrix CellBase) : String :=
  match selected with
  | Selected.range r => getCSV (getRangeFromMatrix r data)
  | _ => ""

/-- `calculateSpreadsheetSize`: the data's derived size, each component
raised to the length of the corresponding label list when one is
supplied (a supplied list is always consulted, even when empty, as an
array is truthy in the host language). -/
def calculateSpreadsheetSize {T : Type} (data : Matrix T)
    (rowLabels columnLabels : Option (List String)) : Size :=
  let s := Matrix.getSize data
  ⟨match rowLabels with
   | some ls => Nat.max s.rows ls.length
   | Option.none => s.rows,
   match columnLabels with
   | some ls => Nat.max s.columns ls.length
   | Option.none => s.columns⟩

/-- One iteration step of the ascending loop of `range`, with explicit
fuel: `none` means the fuel ran out before the loop condition failed. -/
def rangeAscLoop : Nat → Int → Int → Int → Option (List Int)
  | 0, element, stop, _ =>
    if element < stop then Option.none else some []
  | fuel + 1, element, stop, step =>
    if element < stop then
      (rangeAscLoop fuel (element + step) stop step).map (fun l => element :: l)
    else some []

/-- One iteration step of the descending loop of `range`, with explicit
fuel: `none` means the fuel ran out before the loop condition failed. -/
def rangeDescLoop : Nat → Int → Int → Int → Option (List Int)
  | 0, element, stop, _ =>
    if element > stop then Option.none else some []
  | fuel + 1, element, stop, step =>
    if element > stop then
      (rangeDescLoop fuel (element - step) stop step).map (fun l => element :: l)
    else some []

/-- `range(end, start, step)`: the descending loop when
`Math.sign(end - start) === -1`, else the ascending loop.  The loops
are fuel-indexed so that non-termination of the source is observable as
`none` at every fuel. -/
def range (stop start step : Int) (fuel : Nat) : Option (List Int) :=
  if (stop - start).sign = -1 then rangeDescLoop fuel start stop step
  else rangeAscLoop fuel start stop step

/-- The 2x2 data matrix of the specification's scenarios. -/
def dataABCD : Matrix CellBase :=
  [[some { value := Value.str "a" }, some { value := Value.str "b" }],
   [some { value := Value.str "c" }, some { value := Value.str "d" }]]

/-- A concrete store state holding metadata for rows and columns 0 and
1 only (row height 10, column width 20, offsets accumulating). -/
def stateTwoByTwo : StoreState :=
  ⟨fun i => if i ≤ 1 then some ⟨10, 10 * (i : Int)⟩ else Option.none,
   fun j => if j ≤ 1 then some ⟨20, 20 * (j : Int)⟩ else Option.none⟩

/-- `Math.sign x === -1` exactly when `x` is negative. -/
theorem sign_eq_neg_one_iff (a : Int) : a.sign = -1 ↔ a < 0 := by
  rcases a with n | n
  · cases n with
    | zero => simp [Int.sign]
    | succ k =>
      simp [Int.sign]
      omega
  · simp [Int.sign]
    exact Int.negSucc_lt_zero n

/-- C1: `getComputedValue` dispatches in exactly three cases — an
absent cell yields null; a formula cell yields the answer of the
injected capability applied to the extracted expression (the string
value with the one-character marker stripped); any other cell yields
its raw literal value unchanged, so `{value := "hello"}` yields
`"hello"`. -/
theorem getComputedValue_dispatch (fp : String → ParseResponse) (c : CellBase) :
    getComputedValue Option.none fp = Value.null ∧
    (∀ s, c.value = Value.str s → isFormulaValue (Value.str s) = true →
      getComputedValue (some c) fp =
        jsOr (fp (s.drop 1)).error (fp (s.drop 1)).result) ∧
    (isFormulaCell c = false → getComputedValue (some c) fp = c.value) ∧
    getComputedValue (some { value := Value.str "hello" }) fp = Value.str "hello" := by
  have hhello : isFormulaCell { value := Value.str "hello" } = false := by decide
  refine ⟨rfl, ?_, ?_, ?_⟩
  · intro s hs hf
    have hc : isFormulaCell c = true := by
      unfold isFormulaCell
      rw [hs]
      exact hf
    simp [getComputedValue, hc, getFormulaComputedValue, extractFormula, asString, hs]
  · intro h
    simp [getComputedValue, h]
  · simp [getComputedValue, hhello]

/-- C1 witness: the dispatch evaluated at the specification's
scenario — cell `{value := "=1+1"}` with a capability answering
`{result := 2}` computes to `2`. -/
theorem getComputedValue_dispatch_witness :
    getComputedValue (some { value := Value.str "=1+1" })
      (fun _ => ParseResponse.mk (Value.num 2) Value.null) = Value.num 2 := by
  have h := (getComputedValue_dispatch
    (fun _ => ParseResponse.mk (Value.num 2) Value.null)
    { value := Value.str "=1+1" }).2.1 "=1+1" rfl (by decide)
  rw [h]
  decide

/-- C9: a present non-formula cell computes to its stored value
exactly; in particular a present cell whose value is undefined yields
undefined, which is distinct from the null yielded for an absent
cell. -/
theorem getComputedValue_literal (fp : String → ParseResponse) (c : CellBase) :
    (isFormulaValue c.value = false → getComputedValue (some c) fp = c.value) ∧
    getComputedValue (some { value := Value.undef }) fp = Value.undef ∧
    getComputedValue Option.none fp = Value.null ∧
    Value.undef ≠ Value.null := by
  have hundef : isFormulaCell { value := Value.undef } = false := by decide
  refine ⟨?_, ?_, rfl, by decide⟩
  · intro h
    have hc : isFormulaCell c = false := h
    simp [getComputedValue, hc]
  · simp [getComputedValue, hundef]

/-- C9 witness: a present cell with value `7` computes to `7`, and the
undefined/null distinction evaluated concretely. -/
theorem getComputedValue_literal_witness :
    getComputedValue (some { value := Value.num 7 })
      (fun _ => ParseResponse.mk Value.undef Value.undef) = Value.num 7 := by
  exact (getComputedValue_literal
    (fun _ => ParseResponse.mk Value.undef Value.undef)
    { value := Value.num 7 }).1 (by decide)

/-- C4 counterexample: a capability answer of the documented error
shape whose error token is the empty string is not returned verbatim —
the empty string is falsy, so `error || result` falls through to the
(absent) result and the function returns undefined, not the error
string. -/
theorem getFormulaComputedValue_empty_error_counterexample :
    getFormulaComputedValue { value := Value.str "=X" }
      (fun _ => ParseResponse.mk Value.undef (Value.str "")) = Value.undef ∧
    Value.undef ≠ Value.str "" := by
  decide

/-- C4 (amended): `getFormulaComputedValue` returns both outcomes
through one channel — a non-empty error string is returned verbatim,
and whenever the error field is falsy (in particular absent, but also
the empty string) the result field is returned unchanged; errors and
successes are not distinguished to the caller. -/
theorem getFormulaComputedValue_channels (c : CellBase) (fp : String → ParseResponse) :
    (∀ s, (fp (extractFormula (asString c.value))).error = Value.str s → s ≠ "" →
      getFormulaComputedValue c fp = Value.str s) ∧
    (truthy (fp (extractFormula (asString c.value))).error = false →
      getFormulaComputedValue c fp = (fp (extractFormula (asString c.value))).result) := by
  constructor
  · intro s herr hne
    simp [getFormulaComputedValue, jsOr, herr, truthy, hne]
  · intro hf
    simp [getFormulaComputedValue, jsOr, hf]

/-- C4 witness: the two channels evaluated concretely — an error token
`"#DIV/0!"` is returned verbatim, and a success value `2` with a null
error is returned unchanged. -/
theorem getFormulaComputedValue_channels_witness :
    getFormulaComputedValue { value := Value.str "=1/0" }
      (fun _ => ParseResponse.mk Value.null (Value.str "#DIV/0!")) = Value.str "#DIV/0!" ∧
    getFormulaComputedValue { value := Value.str "=1+1" }
      (fun _ => ParseResponse.mk (Value.num 2) Value.null) = Value.num 2 := by
  constructor
  · exact (getFormulaComputedValue_channels { value := Value.str "=1/0" }
      (fun _ => ParseResponse.mk Value.null (Value.str "#DIV/0!"))).1 "#DIV/0!" rfl (by decide)
  · have h := (getFormulaComputedValue_channels { value := Value.str "=1+1" }
      (fun _ => ParseResponse.mk (Value.num 2) Value.null)).2 (by decide)
    rw [h]

/-- C2 counterexample: a present cell whose literal value is the
number `0` does not contribute its literal rendering `"0"` to the
exported CSV — `cell?.value || ""` coerces every falsy value to the
empty string, so the export of the 1x1 matrix `[[{value: 0}]]` under
its full range is `""`, not `"0"`. -/
theorem getSelectedCSV_literal_counterexample :
    getSelectedCSV (Selected.range ⟨⟨0, 0⟩, ⟨0, 0⟩⟩)
      [[some { value := Value.num 0 }]] = "" ∧
    jsToString (Value.num 0) = "0" ∧
    ("" : String) ≠ "0" := by
  decide

/-- C2 (amended): `getSelectedCSV` returns the empty string for a
non-range selection; for a range it slices the data to the range and
flattens it row-major, tab-separated within a row and newline-separated
between rows, where each cell contributes its literal value when that
value is truthy and the empty string otherwise (absent cells and falsy
values such as `0`, `false` or the empty string all contribute the
empty field) — raw values, never computed formula results; for the 2x2
data `[["a","b"],["c","d"]]` under its full range the result is
`"a\t b\n c\t d"` (without the spaces). -/
theorem getSelectedCSV_raw (s : Selected) (d : Matrix CellBase) :
    (Selected.isRange s = false → getSelectedCSV s d = "") ∧
    (∀ r, s = Selected.range r →
      getSelectedCSV s d =
        String.intercalate "\n" ((List.range (r.end_.row + 1 - r.start.row)).map (fun i =>
          String.intercalate "\t" ((List.range (r.end_.column + 1 - r.start.column)).map (fun j =>
            jsToString (jsOr
              (cellLiteral (Matrix.get ⟨r.start.row + i, r.start.column + j⟩ d))
              (Value.str ""))))))) ∧
    getSelectedCSV (Selected.range (getMatrixRange dataABCD)) dataABCD = "a\tb\nc\td" := by
  refine ⟨?_, ?_, by decide⟩
  · intro h
    cases s with
    | range r => simp [Selected.isRange] at h
    | none => rfl
    | entireRows a b => rfl
    | entireColumns a b => rfl
    | entireTable => rfl
  · intro r hr
    subst hr
    simp only [getSelectedCSV, getCSV, getRangeFromMatrix, Matrix.slice, Matrix.map,
      Matrix.join, List.map_map]
    refine congrArg (String.intercalate "\n") (List.map_congr_left ?_)
    intro i _
    simp only [Function.comp, List.map_map]
    refine congrArg (String.intercalate "\t") (List.map_congr_left ?_)
    intro j _
    rfl

/-- C2 witness: the amended statement evaluated at a non-range
selection and at a concrete 1x1 range. -/
theorem getSelectedCSV_raw_witness :
    getSelectedCSV Selected.entireTable dataABCD = "" ∧
    getSelectedCSV (Selected.range ⟨⟨0, 0⟩, ⟨0, 0⟩⟩)
      [[some { value := Value.str "x" }]] = "x" := by
  constructor
  · exact (getSelectedCSV_raw Selected.entireTable dataABCD).1 (by decide)
  · have h := (getSelectedCSV_raw (Selected.range ⟨⟨0, 0⟩, ⟨0, 0⟩⟩)
      [[some { value := Value.str "x" }]]).2.1 ⟨⟨0, 0⟩, ⟨0, 0⟩⟩ rfl
    rw [h]
    decide

/-- C3: `normalizeSelected` masks a range selection to the data's full
bounding rectangle and passes every other variant through unchanged;
whenever the result is a range, that range is contained in the data's
bounding rectangle. -/
theorem normalizeSelected_contained {T : Type} (s : Selected) (d : Matrix T) :
    (Selected.isRange s = false → normalizeSelected s d = s) ∧
    (∀ r, s = Selected.range r →
      normalizeSelected s d = Selected.range (PointRange.mask r (getMatrixRange d))) ∧
    (∀ r, normalizeSelected s d = Selected.range r →
      PointRange.contains (getMatrixRange d) r) := by
  refine ⟨?_, ?_, ?_⟩
  · intro h
    cases s with
    | range r => simp [Selected.isRange] at h
    | none => rfl
    | entireRows a b => rfl
    | entireColumns a b => rfl
    | entireTable => rfl
  · intro r hr
    subst hr
    rfl
  · intro r h
    cases s with
    | range r0 =>
      have hr : r = PointRange.mask r0 (getMatrixRange d) := by
        simpa [normalizeSelected] using h.symm
      subst hr
      simp [PointRange.contains, PointRange.mask, getMatrixRange, PointRange.create,
        Point.ORIGIN]
    | none => simp [normalizeSelected] at h
    | entireRows a b => simp [normalizeSelected] at h
    | entireColumns a b => simp [normalizeSelected] at h
    | entireTable => simp [normalizeSelected] at h

/-- C3 witness: an out-of-bounds range over the 2x2 data normalizes to
the data's bounding rectangle, a pass-through variant is unchanged, and
containment holds at the normalized result. -/
theorem normalizeSelected_contained_witness :
    normalizeSelected Selected.entireTable dataABCD = Selected.entireTable ∧
    normalizeSelected (Selected.range ⟨⟨0, 0⟩, ⟨5, 5⟩⟩) dataABCD =
      Selected.range (PointRange.mask ⟨⟨0, 0⟩, ⟨5, 5⟩⟩ (getMatrixRange dataABCD)) ∧
    PointRange.contains (getMatrixRange dataABCD) ⟨⟨0, 0⟩, ⟨1, 1⟩⟩ := by
  refine ⟨?_, ?_, ?_⟩
  · exact (normalizeSelected_contained Selected.entireTable dataABCD).1 (by decide)
  · exact (normalizeSelected_contained (Selected.range ⟨⟨0, 0⟩, ⟨5, 5⟩⟩) dataABCD).2.1
      ⟨⟨0, 0⟩, ⟨5, 5⟩⟩ rfl
  · exact (normalizeSelected_contained (Selected.range ⟨⟨0, 0⟩, ⟨5, 5⟩⟩) dataABCD).2.2
      ⟨⟨0, 0⟩, ⟨1, 1⟩⟩ (by decide)

/-- C6: `getSelectedPoints` materializes the row-major iteration of a
range selection (outer loop over rows, inner over columns, both corners
inclusive) and yields the empty list — not a fault — for every
non-range variant; on the range `(0,0)-(1,1)` it yields exactly
`(0,0), (0,1), (1,0), (1,1)` in that order. -/
theorem getSelectedPoints_cases (s : Selected) :
    (Selected.isRange s = false → getSelectedPoints s = []) ∧
    (∀ r, s = Selected.range r →
      getSelectedPoints s =
        (List.range (r.end_.row + 1 - r.start.row)).flatMap (fun i =>
          (List.range (r.end_.column + 1 - r.start.column)).map (fun j =>
            Point.mk (r.start.row + i) (r.start.column + j)))) ∧
    getSelectedPoints (Selected.range ⟨⟨0, 0⟩, ⟨1, 1⟩⟩) =
      [⟨0, 0⟩, ⟨0, 1⟩, ⟨1, 0⟩, ⟨1, 1⟩] := by
  refine ⟨?_, ?_, by decide⟩
  · intro h
    cases s with
    | range r => simp [Selected.isRange] at h
    | none => rfl
    | entireRows a b => rfl
    | entireColumns a b => rfl
    | entireTable => rfl
  · intro r hr
    subst hr
    rfl

/-- C6 witness: the empty list at a non-range variant and the
materialized iteration at a concrete range. -/
theorem getSelectedPoints_cases_witness :
    getSelectedPoints (Selected.entireRows 0 3) = [] ∧
    getSelectedPoints (Selected.range ⟨⟨1, 1⟩, ⟨2, 2⟩⟩) =
      (List.range 2).flatMap (fun i =>
        (List.range 2).map (fun j => Point.mk (1 + i) (1 + j))) := by
  constructor
  · exact (getSelectedPoints_cases (Selected.entireRows 0 3)).1 (by decide)
  · exact (getSelectedPoints_cases (Selected.range ⟨⟨1, 1⟩, ⟨2, 2⟩⟩)).2.1
      ⟨⟨1, 1⟩, ⟨2, 2⟩⟩ rfl

/-- C5: `readTextFromClipboard` reads the plain-text payload — the
platform's global clipboard accessor is the path taken whenever it is
present, the event's clipboard data is read (under the plain-text MIME
identifier) when the global accessor is absent, and the empty string is
returned when neither source is available. -/
theorem readTextFromClipboard_dispatch (w : WindowModel) (e : ClipboardEventModel) :
    (∀ g, w.clipboardData = some g → readTextFromClipboard w e = g "Text") ∧
    (∀ g, w.clipboardData = Option.none → e.clipboardData = some g →
      readTextFromClipboard w e = g PLAIN_TEXT_MIME) ∧
    (w.clipboardData = Option.none → e.clipboardData = Option.none →
      readTextFromClipboard w e = "") := by
  refine ⟨?_, ?_, ?_⟩
  · intro g h
    simp [readTextFromClipboard, h]
  · intro g hw he
    simp [readTextFromClipboard, hw, he]
  · intro hw he
    simp [readTextFromClipboard, hw, he]

/-- C5 witness: all three paths evaluated concretely — a present global
accessor wins, the event payload is used when the global is absent, and
the empty string results when both are absent. -/
theorem readTextFromClipboard_dispatch_witness :
    readTextFromClipboard ⟨some (fun _ => "legacy")⟩ ⟨some (fun _ => "evt")⟩ = "legacy" ∧
    readTextFromClipboard ⟨Option.none⟩ ⟨some (fun _ => "evt")⟩ = "evt" ∧
    readTextFromClipboard ⟨Option.none⟩ ⟨Option.none⟩ = "" := by
  refine ⟨?_, ?_, ?_⟩
  · exact (readTextFromClipboard_dispatch ⟨some (fun _ => "legacy")⟩
      ⟨some (fun _ => "evt")⟩).1 (fun _ => "legacy") rfl
  · exact (readTextFromClipboard_dispatch ⟨Option.none⟩
      ⟨some (fun _ => "evt")⟩).2.1 (fun _ => "evt") rfl rfl
  · exact (readTextFromClipboard_dispatch ⟨Option.none⟩ ⟨Option.none⟩).2.2 rfl rfl

/-- C7: `calculateSpreadsheetSize` is the componentwise maximum of the
data's derived size and the lengths of the supplied label lists, a
missing label list contributing nothing; with data of size
`{rows := 2, columns := 2}` and three row labels the result is
`{rows := 3, columns := 2}`. -/
theorem calculateSpreadsheetSize_componentwise {T : Type} (d : Matrix T)
    (rls cls : List String) :
    calculateSpreadsheetSize d (some rls) (some cls) =
      ⟨Nat.max (Matrix.getSize d).rows rls.length,
       Nat.max (Matrix.getSize d).columns cls.length⟩ ∧
    calculateSpreadsheetSize d (some rls) Option.none =
      ⟨Nat.max (Matrix.getSize d).rows rls.length, (Matrix.getSize d).columns⟩ ∧
    calculateSpreadsheetSize d Option.none (some cls) =
      ⟨(Matrix.getSize d).rows, Nat.max (Matrix.getSize d).columns cls.length⟩ ∧
    calculateSpreadsheetSize d Option.none Option.none = Matrix.getSize d ∧
    calculateSpreadsheetSize dataABCD (some ["r1", "r2", "r3"]) Option.none = ⟨3, 2⟩ := by
  exact ⟨rfl, rfl, rfl, rfl, by decide⟩

/-- C10: `getRangeDimensions` is defined exactly when both corners of
the range have row and column dimension metadata in the state, in which
case it is the pixel bounding box spanning the two corner cells — left
and top taken from the start cell, width and height measured to the far
edge of the end cell; missing metadata yields an absent result, not a
fault. -/
theorem getRangeDimensions_defined_iff (st : StoreState) (r : PointRange) :
    ((getRangeDimensions st r).isSome = true ↔
      ((st.rowDimensions r.start.row).isSome = true ∧
       (st.columnDimensions r.start.column).isSome = true ∧
       (st.rowDimensions r.end_.row).isSome = true ∧
       (st.columnDimensions r.end_.column).isSome = true)) ∧
    (∀ rs cs re ce,
      st.rowDimensions r.start.row = some rs →
      st.columnDimensions r.start.column = some cs →
      st.rowDimensions r.end_.row = some re →
      st.columnDimensions r.end_.column = some ce →
      getRangeDimensions st r =
        some { width := ce.left + ce.width - cs.left,
               height := re.top + re.height - rs.top,
               left := cs.left,
               top := rs.top }) := by
  constructor
  · rcases h1 : st.rowDimensions r.start.row with _ | rs <;>
      rcases h2 : st.columnDimensions r.start.column with _ | cs <;>
        rcases h3 : st.rowDimensions r.end_.row with _ | re <;>
          rcases h4 : st.columnDimensions r.end_.column with _ | ce <;>
            simp [getRangeDimensions, getCellDimensions, h1, h2, h3, h4]
  · intro rs cs re ce h1 h2 h3 h4
    simp [getRangeDimensions, getCellDimensions, h1, h2, h3, h4]

/-- C10 witness: on a state with metadata for rows/columns 0 and 1
only, the range `(0,0)-(1,1)` has dimensions and they span both corner
cells, while the range `(0,0)-(2,2)` (whose end corner has no
metadata) has none. -/
theorem getRangeDimensions_defined_iff_witness :
    getRangeDimensions stateTwoByTwo ⟨⟨0, 0⟩, ⟨1, 1⟩⟩ =
      some { width := 40, height := 20, left := 0, top := 0 } ∧
    (getRangeDimensions stateTwoByTwo ⟨⟨0, 0⟩, ⟨2, 2⟩⟩).isSome = false := by
  constructor
  · have h := (getRangeDimensions_defined_iff stateTwoByTwo ⟨⟨0, 0⟩, ⟨1, 1⟩⟩).2
      ⟨10, 0⟩ ⟨20, 0⟩ ⟨10, 10⟩ ⟨20, 20⟩ (by decide) (by decide) (by decide) (by decide)
    rw [h]
    decide
  · cases hs : (getRangeDimensions stateTwoByTwo ⟨⟨0, 0⟩, ⟨2, 2⟩⟩).isSome with
    | false => rfl
    | true =>
      exfalso
      have h2 := ((getRangeDimensions_defined_iff stateTwoByTwo ⟨⟨0, 0⟩, ⟨2, 2⟩⟩).1).mp hs
      revert h2
      decide

/-- With a step of at least one, the ascending loop finishes within
`stop - element` iterations of fuel. -/
theorem rangeAscLoop_isSome (step : Int) (hstep : 1 ≤ step) :
    ∀ (fuel : Nat) (element stop : Int), stop - element ≤ (fuel : Int) →
      (rangeAscLoop fuel element stop step).isSome = true := by
  intro fuel
  induction fuel with
  | zero =>
    intro element stop h
    have hnlt : ¬ element < stop := by
      intro hlt
      simp at h
      omega
    simp [rangeAscLoop, hnlt]
  | succ n ih =>
    intro element stop h
    by_cases hlt : element < stop
    · have hs := ih (element + step) stop (by push_cast at h ⊢; omega)
      obtain ⟨l, hl⟩ := Option.isSome_iff_exists.mp hs
      simp [rangeAscLoop, hlt, hl]
    · simp [rangeAscLoop, hlt]

/-- With a step of at least one, the descending loop finishes within
`element - stop` iterations of fuel. -/
theorem rangeDescLoop_isSome (step : Int) (hstep : 1 ≤ step) :
    ∀ (fuel : Nat) (element stop : Int), element - stop ≤ (fuel : Int) →
      (rangeDescLoop fuel element stop step).isSome = true := by
  intro fuel
  induction fuel with
  | zero =>
    intro element stop h
    have hnlt : ¬ element > stop := by
      intro hlt
      simp at h
      omega
    simp [rangeDescLoop, hnlt]
  | succ n ih =>
    intro element stop h
    by_cases hlt : element > stop
    · have hs := ih (element - step) stop (by push_cast at h ⊢; omega)
      obtain ⟨l, hl⟩ := Option.isSome_iff_exists.mp hs
      simp [rangeDescLoop, hlt, hl]
    · simp [rangeDescLoop, hlt]

/-- Every element produced by the ascending loop lies in
`[element, stop)` when the step is at least one. -/
theorem rangeAscLoop_mem (step : Int) (hstep : 1 ≤ step) :
    ∀ (fuel : Nat) (element stop : Int) (l : List Int),
      rangeAscLoop fuel element stop step = some l →
      ∀ x ∈ l, element ≤ x ∧ x < stop := by
  intro fuel
  induction fuel with
  | zero =>
    intro element stop l h x hx
    by_cases hlt : element < stop
    · simp [rangeAscLoop, hlt] at h
    · simp [rangeAscLoop, hlt] at h
      subst h
      simp at hx
  | succ n ih =>
    intro element stop l h x hx
    by_cases hlt : element < stop
    · rcases h' : rangeAscLoop n (element + step) stop step with _ | l'
      · rw [rangeAscLoop, if_pos hlt, h'] at h
        simp at h
      · rw [rangeAscLoop, if_pos hlt, h'] at h
        simp at h
        subst h
        rcases List.mem_cons.mp hx with hx | hx
        · subst hx
          exact ⟨le_refl x, hlt⟩
        · have := ih (element + step) stop l' h' x hx
          constructor
          · omega
          · exact this.2
    · simp [rangeAscLoop, hlt] at h
      subst h
      simp at hx

/-- Every element produced by the descending loop lies in
`(stop, element]` when the step is at least one. -/
theorem rangeDescLoop_mem (step : Int) (hstep : 1 ≤ step) :
    ∀ (fuel : Nat) (element stop : Int) (l : List Int),
      rangeDescLoop fuel element stop step = some l →
      ∀ x ∈ l, stop < x ∧ x ≤ element := by
  intro fuel
  induction fuel with
  | zero =>
    intro element stop l h x hx
    by_cases hlt : element > stop
    · simp [rangeDescLoop, hlt] at h
    · simp [rangeDescLoop, hlt] at h
      subst h
      simp at hx
  | succ n ih =>
    intro element stop l h x hx
    by_cases hlt : element > stop
    · rcases h' : rangeDescLoop n (element - step) stop step with _ | l'
      · rw [rangeDescLoop, if_pos hlt, h'] at h
        simp at h
      · rw [rangeDescLoop, if_pos hlt, h'] at h
        simp at h
        subst h
        rcases List.mem_cons.mp hx with hx | hx
        · subst hx
          exact ⟨hlt, le_refl x⟩
        · have := ih (element - step) stop l' h' x hx
          constructor
          · exact this.1
          · omega
    · simp [rangeDescLoop, hlt] at h
      subst h
      simp at hx

/-- With a zero step and the ascending guard still true, the loop never
finishes: it is `none` at every fuel. -/
theorem rangeAscLoop_step_zero (stop : Int) :
    ∀ (fuel : Nat) (element : Int), element < stop →
      rangeAscLoop fuel element stop 0 = Option.none := by
  intro fuel
  induction fuel with
  | zero =>
    intro element h
    simp [rangeAscLoop, h]
  | succ n ih =>
    intro element h
    have h0 : element + (0 : Int) = element := by omega
    simp [rangeAscLoop, h, h0, ih element h]

/-- With a zero step and the descending guard still true, the loop
never finishes: it is `none` at every fuel. -/
theorem rangeDescLoop_step_zero (stop : Int) :
    ∀ (fuel : Nat) (element : Int), element > stop →
      rangeDescLoop fuel element stop 0 = Option.none := by
  intro fuel
  induction fuel with
  | zero =>
    intro element h
    simp [rangeDescLoop, h]
  | succ n ih =>
    intro element h
    have h0 : element - (0 : Int) = element := by omega
    simp [rangeDescLoop, h, h0, ih element h]

/-- C8: for integer arguments with `step >= 1`, `range` terminates —
fuel `|stop - start|` suffices and the produced list's elements run
from `start` upward while below `stop` (or downward while above `stop`
when `stop < start`); outside the precondition termination fails:
with `step = 0` and `stop` distinct from `start` the loop is `none` at
every fuel. -/
theorem range_termination (stop start step : Int) :
    (1 ≤ step → ∃ l, range stop start step ((stop - start).natAbs) = some l ∧
      ∀ x ∈ l, (start ≤ x ∧ x < stop) ∨ (stop < x ∧ x ≤ start)) ∧
    (step = 0 → stop ≠ start → ∀ fuel, range stop start step fuel = Option.none) := by
  constructor
  · intro hstep
    unfold range
    by_cases hneg : (stop - start).sign = -1
    · have hlt : stop < start := by
        have := (sign_eq_neg_one_iff (stop - start)).mp hneg
        omega
      rw [if_pos hneg]
      have hs := rangeDescLoop_isSome step hstep ((stop - start).natAbs) start stop (by omega)
      obtain ⟨l, hl⟩ := Option.isSome_iff_exists.mp hs
      refine ⟨l, hl, fun x hx => ?_⟩
      have := rangeDescLoop_mem step hstep ((stop - start).natAbs) start stop l hl x hx
      exact Or.inr ⟨this.1, this.2⟩
    · have hge : start ≤ stop := by
        have := (sign_eq_neg_one_iff (stop - start)).not.mp hneg
        omega
      rw [if_neg hneg]
      have hs := rangeAscLoop_isSome step hstep ((stop - start).natAbs) start stop (by omega)
      obtain ⟨l, hl⟩ := Option.isSome_iff_exists.mp hs
      refine ⟨l, hl, fun x hx => ?_⟩
      have := rangeAscLoop_mem step hstep ((stop - start).natAbs) start stop l hl x hx
      exact Or.inl ⟨this.1, this.2⟩
  · intro h0 hne fuel
    subst h0
    unfold range
    by_cases hneg : (stop - start).sign = -1
    · have hlt : stop < start := by
        have := (sign_eq_neg_one_iff (stop - start)).mp hneg
        omega
      rw [if_pos hneg]
      exact rangeDescLoop_step_zero stop fuel start hlt
    · have hgt : start < stop := by
        have := (sign_eq_neg_one_iff (stop - start)).not.mp hneg
        omega
      rw [if_neg hneg]
      exact rangeAscLoop_step_zero stop fuel start hgt

/-- C8 witness: `range(3, 0, 1)` terminates within fuel 3 with elements
in `[0, 3)`, and `range(3, 0, 0)` is still unfinished at fuel 9. -/
theorem range_termination_witness :
    (∃ l, range 3 0 1 (((3 : Int) - 0).natAbs) = some l ∧
      ∀ x ∈ l, ((0 : Int) ≤ x ∧ x < 3) ∨ ((3 : Int) < x ∧ x ≤ 0)) ∧
    range 3 0 0 9 = Option.none := by
  constructor
  · exact (range_termination 3 0 1).1 (by decide)
  · exact (range_termination 3 0 0).2 rfl (by decide) 9

end RS
